import Mathlib

/-!
Verification development for the proxygen `HTTPSession` core
(`proxygen/lib/http/session/HTTPSession.h`).

The development shallowly embeds the parts of the session engine needed to
settle the stated properties:

* `Proxygen` — direct embeddings of the inline member functions and default
  member initializers that appear in the header
  (`supportsMoreTransactions`, `getMaxConcurrentOutgoingStreams`,
  `getMaxConcurrentPushTransactions`, `setCloseReason`,
  `getConnectionCloseReason`, and the field defaults).
* `TxnTable` — the inline template `invokeOnAllTransactions`, modelled over a
  table of stream ids with an arbitrary table-mutating callback.
* `ShutdownModel` — the shutdown state machine (phase flags, transaction
  count, active-write count, `checkForShutdown`, destruction).
* `EgressModel` — the egress pipeline byte accounting
  (`writeBuf_`, `pendingWrites_`, `bytesWritten_`, `bytesScheduled_`).
* `BackpressureModel` — ingress read backpressure
  (`pendingReadSize_`, `pauseReads`/`resumeReads`, `onIngressLimitExceeded`).
* `AbortModel` — per-transaction abort idempotence (`sendAbort`).

Definitions come first, theorems follow at the end of the file.
-/

namespace Proxygen

/-- Modelled from the spec: the `ConnectionCloseReason` enum lives in
`HTTPConstants.h`, which is not among the sources; the header only uses its
sentinel `kMAX_REASON` (the initial value of `closeReason_`).  All other
reasons are represented abstractly by a numeric code. -/
inductive ConnectionCloseReason where
  | kMAX_REASON : ConnectionCloseReason
  | reason (code : Nat) : ConnectionCloseReason
deriving DecidableEq, Repr

/-- The `HTTPSession` member fields relevant to the inline member functions,
with the types the header gives them (machine integers are modelled as `Nat`;
none of the functions below can overflow them). -/
structure HTTPSessionFields where
  closeReason_ : ConnectionCloseReason
  maxConcurrentPushTransactions_ : Nat
  maxConcurrentOutgoingStreamsConfig_ : Nat
  maxConcurrentOutgoingStreamsRemote_ : Nat
  maxConcurrentIncomingStreams_ : Nat
  outgoingStreams_ : Nat
  incomingStreams_ : Nat
  initialReceiveWindow_ : Nat
  receiveStreamWindowSize_ : Nat
deriving DecidableEq, Repr

/-- The default member initializers of `HTTPSession`
(`closeReason_{ConnectionCloseReason::kMAX_REASON}`,
`maxConcurrentPushTransactions_{100}`,
`maxConcurrentOutgoingStreamsConfig_{100}`,
`maxConcurrentOutgoingStreamsRemote_{100000}`,
`maxConcurrentIncomingStreams_{100}`, `outgoingStreams_{0}`,
`incomingStreams_{0}`, `initialReceiveWindow_{65536}`,
`receiveStreamWindowSize_{65536}`). -/
def initHTTPSession : HTTPSessionFields :=
  { closeReason_ := ConnectionCloseReason.kMAX_REASON
    maxConcurrentPushTransactions_ := 100
    maxConcurrentOutgoingStreamsConfig_ := 100
    maxConcurrentOutgoingStreamsRemote_ := 100000
    maxConcurrentIncomingStreams_ := 100
    outgoingStreams_ := 0
    incomingStreams_ := 0
    initialReceiveWindow_ := 65536
    receiveStreamWindowSize_ := 65536 }

/-- `bool supportsMoreTransactions() const`:
`(outgoingStreams_ < maxConcurrentOutgoingStreamsConfig_) &&
 (outgoingStreams_ < maxConcurrentOutgoingStreamsRemote_)`. -/
def supportsMoreTransactions (s : HTTPSessionFields) : Bool :=
  (s.outgoingStreams_ < s.maxConcurrentOutgoingStreamsConfig_) &&
    (s.outgoingStreams_ < s.maxConcurrentOutgoingStreamsRemote_)

/-- `uint32_t getMaxConcurrentOutgoingStreams() const`:
`std::min(maxConcurrentOutgoingStreamsConfig_,
          maxConcurrentOutgoingStreamsRemote_)`. -/
def getMaxConcurrentOutgoingStreams (s : HTTPSessionFields) : Nat :=
  min s.maxConcurrentOutgoingStreamsConfig_ s.maxConcurrentOutgoingStreamsRemote_

/-- `uint32_t getMaxConcurrentPushTransactions() const`:
returns `maxConcurrentPushTransactions_`. -/
def getMaxConcurrentPushTransactions (s : HTTPSessionFields) : Nat :=
  s.maxConcurrentPushTransactions_

/-- `void setCloseReason(ConnectionCloseReason reason)`:
`if (closeReason_ == ConnectionCloseReason::kMAX_REASON) closeReason_ = reason;`. -/
def setCloseReason (s : HTTPSessionFields) (reason : ConnectionCloseReason) :
    HTTPSessionFields :=
  if s.closeReason_ = ConnectionCloseReason.kMAX_REASON then
    { s with closeReason_ := reason }
  else
    s

/-- `ConnectionCloseReason getConnectionCloseReason() const`:
returns `closeReason_`. -/
def getConnectionCloseReason (s : HTTPSessionFields) : ConnectionCloseReason :=
  s.closeReason_

end Proxygen

namespace TxnTable

/-- The transaction table `transactions_`, modelled by its list of stream ids
(for `std::map`, the keys in iteration order).  A callback passed to
`invokeOnAllTransactions` may mutate the table arbitrarily, so it is modelled
as an arbitrary function on tables paired with the stream id it is invoked
on. -/
abbrev Table := List Nat

/-- The loop body of `invokeOnAllTransactions`: iterate over the snapshot
`ids` taken before any callback ran; stop when the snapshot is exhausted or
the table has become empty (`idit != ids.end() && !transactions_.empty()`);
look each id up again (`findTransaction`) and invoke the callback only when
it is still present.  Returns the final table together with the list of
stream ids on which the callback was actually invoked, in invocation
order. -/
def invokeLoop (f : Nat → Table → Table) : List Nat → Table → Table × List Nat
  | [], s => (s, [])
  | i :: rest, s =>
    if s = [] then (s, [])
    else if i ∈ s then
      let p := invokeLoop f rest (f i s)
      (p.1, i :: p.2)
    else invokeLoop f rest s

/-- `invokeOnAllTransactions`: snapshot the stream ids of `transactions_`
(`for (auto txn: transactions_) ids.push_back(txn.first);`), then run the
loop over the snapshot starting from the same table. -/
def invokeOnAllTransactions (f : Nat → Table → Table) (s : Table) :
    Table × List Nat :=
  invokeLoop f s s

end TxnTable

namespace ShutdownModel

/-- The two transport directions of a session, fixed at construction
(`const TransportDirection direction_`). -/
inductive Direction where
  | upstream : Direction
  | downstream : Direction
deriving DecidableEq, Repr

/-- Modelled from the spec: the session shutdown state machine.  The bodies
of `drain`, `closeWhenIdle`, `shutdownTransport`,
`shutdownTransportWithReset`, `dropConnection`, `onSessionParseError`,
`pauseReads`/`resumeReads`, `decrementTransactionCount`, `onWriteCompleted`
and `checkForShutdown` are not among the sources (the header declares them);
they are modelled from spec sections 4.1–4.4.  The state holds the phase-flag
bitfield, the transaction count (`transactions_` modelled by its size), the
in-flight write count `numActiveWrites_`, a destruction marker and the number
of `InfoCallback::onDestroy` deliveries. -/
structure SessionSM where
  direction : Direction
  draining : Bool
  writesDraining : Bool
  readsPaused : Bool
  readsShutdown : Bool
  writesPaused : Bool
  writesShutdown : Bool
  resetAfterDrainingWrites : Bool
  ingressError : Bool
  transactions : Nat
  numActiveWrites : Nat
  destroyed : Bool
  onDestroyCount : Nat
deriving DecidableEq, Repr

/-- A freshly constructed session: all phase flags clear, no transactions,
no in-flight writes, not destroyed. -/
def initSession (d : Direction) : SessionSM :=
  { direction := d
    draining := false
    writesDraining := false
    readsPaused := false
    readsShutdown := false
    writesPaused := false
    writesShutdown := false
    resetAfterDrainingWrites := false
    ingressError := false
    transactions := 0
    numActiveWrites := 0
    destroyed := false
    onDestroyCount := 0 }

/-- The external entry points of the shutdown state machine (spec 4.3/4.4)
together with the transaction and write lifecycle events that feed it. -/
inductive Event where
  | drain : Event
  | closeWhenIdle : Event
  | shutdownTransport (shutReads shutWrites : Bool) : Event
  | dropConnection : Event
  | sessionParseError : Event
  | pauseReads : Event
  | resumeReads : Event
  | pauseWrites : Event
  | resumeWrites : Event
  | addTransaction : Event
  | detachTransaction : Event
  | submitWrite : Event
  | completeWrite : Event
deriving DecidableEq, Repr

/-- Modelled from the spec: `checkForShutdown` — "if both shutdown flags set
and no active writes and no transactions, detach all pending WriteSegments
and destroy self" (spec 4.4); destruction delivers
`InfoCallback::onDestroy`. -/
def checkForShutdown (s : SessionSM) : SessionSM :=
  if s.readsShutdown && s.writesShutdown && s.transactions == 0 &&
      s.numActiveWrites == 0 && !s.destroyed then
    { s with destroyed := true, onDestroyCount := s.onDestroyCount + 1 }
  else
    s

/-- Modelled from the spec: the state mutation each entry point performs
(spec 4.1 backpressure, 4.2 per-turn cap, 4.3 lifecycle, 4.4 entry points).
`drain` sets `draining_`; `closeWhenIdle` sets `writesDraining_` and shuts
writes once no transactions remain; `shutdownTransport` sets the matching
shutdown flags; `dropConnection` aborts all transactions and, if writes are
in flight, sets `resetAfterDrainingWrites_`, else shuts both sides at once;
a session parse error sets `ingressError_`, aborts all transactions and
shuts reads; `detachTransaction` decrements the count and, if it was the
last transaction of a draining upstream session, shuts the transport;
`completeWrite` performs the deferred shutdowns once the last in-flight
write finishes. -/
def mutate (e : Event) (s : SessionSM) : SessionSM :=
  match e with
  | Event.drain => { s with draining := true }
  | Event.closeWhenIdle =>
    if s.transactions == 0 then
      { s with writesDraining := true, writesShutdown := true }
    else
      { s with writesDraining := true }
  | Event.shutdownTransport shutReads shutWrites =>
    { s with readsShutdown := s.readsShutdown || shutReads
             writesShutdown := s.writesShutdown || shutWrites }
  | Event.dropConnection =>
    if s.numActiveWrites == 0 then
      { s with transactions := 0, readsShutdown := true, writesShutdown := true }
    else
      { s with transactions := 0, readsShutdown := true
               resetAfterDrainingWrites := true }
  | Event.sessionParseError =>
    { s with ingressError := true, readsShutdown := true, transactions := 0 }
  | Event.pauseReads => { s with readsPaused := true }
  | Event.resumeReads => { s with readsPaused := false }
  | Event.pauseWrites => { s with writesPaused := true }
  | Event.resumeWrites => { s with writesPaused := false }
  | Event.addTransaction =>
    if s.draining then s else { s with transactions := s.transactions + 1 }
  | Event.detachTransaction =>
    let s' := { s with transactions := s.transactions - 1 }
    if s'.transactions == 0 && s'.draining &&
        decide (s'.direction = Direction.upstream) then
      { s' with readsShutdown := true, writesShutdown := true }
    else
      s'
  | Event.submitWrite =>
    if s.writesShutdown then s
    else { s with numActiveWrites := s.numActiveWrites + 1 }
  | Event.completeWrite =>
    let s' := { s with numActiveWrites := s.numActiveWrites - 1 }
    if s'.numActiveWrites == 0 && (s'.resetAfterDrainingWrites || s'.writesDraining) then
      { s' with writesShutdown := true
                readsShutdown := s'.readsShutdown || s'.resetAfterDrainingWrites }
    else
      s'

/-- One step of the session: a destroyed session performs nothing; otherwise
the entry point runs and finishes with `checkForShutdown`. -/
def step (e : Event) (s : SessionSM) : SessionSM :=
  if s.destroyed then s else checkForShutdown (mutate e s)

/-- Run a sequence of events. -/
def run (es : List Event) (s : SessionSM) : SessionSM :=
  es.foldl (fun t e => step e t) s

/-- The four destruction conditions of spec 3 as a decidable predicate:
`readsShutdown_ ∧ writesShutdown_ ∧ transactions_ empty ∧
numActiveWrites_ = 0`. -/
def destructionConditions (s : SessionSM) : Bool :=
  s.readsShutdown && s.writesShutdown && s.transactions == 0 &&
    s.numActiveWrites == 0

end ShutdownModel

namespace EgressModel

/-- `WriteSegment`: one in-flight transport write, holding its expected
length (`uint64_t length_`). -/
structure WriteSegment where
  length_ : Nat
deriving DecidableEq, Repr

/-- Modelled from the spec: the egress byte accounting of the session.  The
bodies of `scheduleWrite`, `runLoopCallback`, `getNextToSend` and
`onWriteSuccess` are not among the sources; they are modelled from spec 4.2.
`writeBufLen` is `writeBuf_.chainLength()`, `pendingWrites` is the
`pendingWrites_` intrusive list of `WriteSegment`s in submission order,
`bytesWritten_` and `bytesScheduled_` are the header counters, and
`numActiveWrites_` counts submitted writes without a completion yet. -/
structure EgressState where
  writeBufLen : Nat
  pendingWrites : List WriteSegment
  bytesWritten_ : Nat
  bytesScheduled_ : Nat
  numActiveWrites_ : Nat
deriving DecidableEq, Repr

/-- A fresh session: empty write buffer, no pending writes, zero counters. -/
def initEgress : EgressState :=
  { writeBufLen := 0
    pendingWrites := []
    bytesWritten_ := 0
    bytesScheduled_ := 0
    numActiveWrites_ := 0 }

/-- Total length of the pending `WriteSegment`s. -/
def pendingWritesLength (l : List WriteSegment) : Nat :=
  (l.map WriteSegment.length_).sum

/-- Modelled from the spec: one send-* call serializing `n` frame bytes into
`writeBuf_` (spec 4.2 contract, step (a)). -/
def sendBytes (n : Nat) (s : EgressState) : EgressState :=
  { s with writeBufLen := s.writeBufLen + n }

/-- Modelled from the spec: the end-of-loop write scheduler (spec 4.2 loop
callback): submit the coalesced `writeBuf_` as one `WriteSegment` — at most
one transport write per loop turn — advancing `bytesScheduled_` by the
submitted length (the accounting implied by `sessionByteOffset`, which adds
`writeBuf_.chainLength()` on top of `bytesScheduled_`) and incrementing
`numActiveWrites_`. -/
def loopCallback (s : EgressState) : EgressState :=
  if s.writeBufLen == 0 then s
  else
    { s with writeBufLen := 0
             pendingWrites := s.pendingWrites ++ [{ length_ := s.writeBufLen }]
             bytesScheduled_ := s.bytesScheduled_ + s.writeBufLen
             numActiveWrites_ := s.numActiveWrites_ + 1 }

/-- One full event-loop turn: the send-* calls made during the turn followed
by the scheduled loop callback. -/
def runTurn (sends : List Nat) (s : EgressState) : EgressState :=
  loopCallback (sends.foldl (fun t n => sendBytes n t) s)

/-- Modelled from the spec: `writeSuccess` — pop the oldest `WriteSegment`,
advance `bytesWritten_` by its length, decrement the in-flight write count
(spec 4.2 write completion). -/
def writeSuccess (s : EgressState) : EgressState :=
  match s.pendingWrites with
  | [] => s
  | seg :: rest =>
    { s with pendingWrites := rest
             bytesWritten_ := s.bytesWritten_ + seg.length_
             numActiveWrites_ := s.numActiveWrites_ - 1 }

/-- The observable egress events between which the loop-boundary invariant is
stated: a whole event-loop turn, or a transport write completion. -/
inductive EgressEvent where
  | turn (sends : List Nat) : EgressEvent
  | writeSuccess : EgressEvent
deriving DecidableEq, Repr

/-- Interpret one egress event. -/
def egressStep (e : EgressEvent) (s : EgressState) : EgressState :=
  match e with
  | EgressEvent.turn sends => runTurn sends s
  | EgressEvent.writeSuccess => writeSuccess s

/-- Run a sequence of egress events; every state this produces is a
loop-boundary state. -/
def runEgress (es : List EgressEvent) (s : EgressState) : EgressState :=
  es.foldl (fun t e => egressStep e t) s

/-- `inline uint64_t sessionByteOffset()`:
`bytesScheduled_ + writeBuf_.chainLength()`. -/
def sessionByteOffset (s : EgressState) : Nat :=
  s.bytesScheduled_ + s.writeBufLen

end EgressModel

namespace BackpressureModel

/-- Modelled from the spec: the ingress read-backpressure state.  The bodies
of `processReadData`, `pauseReads`, `resumeReads` and
`notifyIngressBodyProcessed` are not among the sources; they are modelled
from spec 4.1.  `pendingReadSize_` counts buffered ingress body bytes; the
three counters count the calls to `pauseReads()`, `resumeReads()` and
`InfoCallback::onIngressLimitExceeded`; `everExceeded` records whether the
counter ever exceeded the limit after an ingress batch, and
`everDroppedBelow` records whether, after reads had been paused at least
once, a `notifyIngressBodyProcessed` call ever brought the counter below the
limit. -/
structure ReadState where
  pendingReadSize_ : Nat
  readsPaused : Bool
  pauseReadsCalls : Nat
  resumeReadsCalls : Nat
  limitExceededCalls : Nat
  everExceeded : Bool
  everDroppedBelow : Bool
deriving DecidableEq, Repr

/-- A fresh session: nothing buffered, reads flowing, no calls yet. -/
def initReadState : ReadState :=
  { pendingReadSize_ := 0
    readsPaused := false
    pauseReadsCalls := 0
    resumeReadsCalls := 0
    limitExceededCalls := 0
    everExceeded := false
    everDroppedBelow := false }

/-- Modelled from the spec: one ingress batch buffering `n` body bytes;
afterwards, if `pendingReadSize_ > kDefaultReadBufLimit` and reads are not
already paused, call `pauseReads()` on the transport and notify
`onIngressLimitExceeded` (spec 4.1 backpressure; scenario S4 has `pauseReads`
called exactly once under continuous excess). -/
def ingressBatch (limit n : Nat) (s : ReadState) : ReadState :=
  let p := s.pendingReadSize_ + n
  let s' := { s with pendingReadSize_ := p
                     everExceeded := s.everExceeded || decide (limit < p) }
  if limit < p ∧ s.readsPaused = false then
    { s' with readsPaused := true
              pauseReadsCalls := s.pauseReadsCalls + 1
              limitExceededCalls := s.limitExceededCalls + 1 }
  else s'

/-- Modelled from the spec: `notifyIngressBodyProcessed(bytes)` —
transactions drained `n` buffered body bytes, so the counter decreases; when
it crosses below the limit while reads are paused, `resumeReads()` re-enables
transport reads (spec 4.1). -/
def notifyIngressBodyProcessed (limit n : Nat) (s : ReadState) : ReadState :=
  let p := s.pendingReadSize_ - n
  let s' := { s with pendingReadSize_ := p
                     everDroppedBelow :=
                       s.everDroppedBelow ||
                         (decide (1 ≤ s.pauseReadsCalls) && decide (p < limit)) }
  if s.readsPaused = true ∧ p < limit then
    { s' with readsPaused := false
              resumeReadsCalls := s.resumeReadsCalls + 1 }
  else s'

/-- The ingress-side events: a batch of ingress body bytes, or a transaction
reporting processed body bytes. -/
inductive ReadEvent where
  | ingressBatch (n : Nat) : ReadEvent
  | bodyProcessed (n : Nat) : ReadEvent
deriving DecidableEq, Repr

/-- Interpret one ingress event against the read-buffer limit. -/
def readStep (limit : Nat) (e : ReadEvent) (s : ReadState) : ReadState :=
  match e with
  | ReadEvent.ingressBatch n => ingressBatch limit n s
  | ReadEvent.bodyProcessed n => notifyIngressBodyProcessed limit n s

/-- Run a sequence of ingress events. -/
def runReads (limit : Nat) (es : List ReadEvent) (s : ReadState) : ReadState :=
  es.foldl (fun t e => readStep limit e t) s

end BackpressureModel

namespace AbortModel

/-- Modelled from the spec: the per-transaction abort state seen by
`sendAbort` (whose body is not among the sources).  Per spec 4.5, an abort
emits a stream-reset frame through the codec and aborts are idempotent per
transaction, so a transaction only ever carries one pending abort. -/
structure TxnState where
  streamID : Nat
  aborted : Bool
deriving DecidableEq, Repr

/-- Modelled from the spec: `sendAbort(txn, statusCode)` — emit one
stream-reset frame on the wire the first time the transaction is aborted;
a repeated abort of the same transaction emits nothing (spec 4.5: "Aborts
are idempotent per transaction").  Returns the updated transaction and the
number of reset frames the call put on the wire. -/
def sendAbort (t : TxnState) : TxnState × Nat :=
  if t.aborted then (t, 0) else ({ t with aborted := true }, 1)

end AbortModel

/-! ## Theorems -/

namespace Proxygen

/-- A `setCloseReason` call on a session whose close reason is already set
leaves the whole state unchanged, so a fold of further calls is the identity. -/
theorem foldl_setCloseReason_of_set (rs : List ConnectionCloseReason)
    (s : HTTPSessionFields)
    (h : s.closeReason_ ≠ ConnectionCloseReason.kMAX_REASON) :
    rs.foldl setCloseReason s = s := by
  induction rs with
  | nil => rfl
  | cons r rs ih =>
    have hstep : setCloseReason s r = s := by
      unfold setCloseReason
      simp [h]
    simp [List.foldl, hstep, ih]

/-- After any sequence of `setCloseReason` calls starting from a state whose
close reason is still the sentinel, the recorded reason is the first
non-sentinel reason of the sequence (or the sentinel if there is none). -/
theorem foldl_setCloseReason_first (rs : List ConnectionCloseReason)
    (s : HTTPSessionFields)
    (h : s.closeReason_ = ConnectionCloseReason.kMAX_REASON) :
    getConnectionCloseReason (rs.foldl setCloseReason s) =
      (rs.find? (fun r => r ≠ ConnectionCloseReason.kMAX_REASON)).getD
        ConnectionCloseReason.kMAX_REASON := by
  induction rs generalizing s with
  | nil => simpa [getConnectionCloseReason, List.find?] using h
  | cons r rs ih =>
    by_cases hr : r = ConnectionCloseReason.kMAX_REASON
    · subst hr
      have hstep : setCloseReason s ConnectionCloseReason.kMAX_REASON =
          { s with closeReason_ := ConnectionCloseReason.kMAX_REASON } := by
        unfold setCloseReason
        simp [h]
      rw [List.foldl_cons, hstep]
      rw [ih _ (by rfl)]
      simp [List.find?]
    · have hstep : setCloseReason s r = { s with closeReason_ := r } := by
        unfold setCloseReason
        simp [h]
      rw [List.foldl_cons, hstep]
      have hset : ({ s with closeReason_ := r } :
          HTTPSessionFields).closeReason_ ≠ ConnectionCloseReason.kMAX_REASON := hr
      rw [foldl_setCloseReason_of_set rs _ hset]
      simp [getConnectionCloseReason, List.find?, hr]

end Proxygen

namespace TxnTable

/-- The loop invoked on an empty table does nothing. -/
theorem invokeLoop_nil_table (f : Nat → Table → Table) (ids : List Nat) :
    invokeLoop f ids ([] : Table) = ([], []) := by
  cases ids <;> simp [invokeLoop]

/-- The ids actually invoked form a subsequence of the snapshot. -/
theorem invokeLoop_sublist (f : Nat → Table → Table) (ids : List Nat)
    (s : Table) : (invokeLoop f ids s).2.Sublist ids := by
  induction ids generalizing s with
  | nil => simp [invokeLoop]
  | cons i rest ih =>
    by_cases hs : s = []
    · simp [invokeLoop, hs]
    · by_cases hi : i ∈ s
      · simpa [invokeLoop, hs, hi] using List.Sublist.cons₂ i (ih (f i s))
      · simpa [invokeLoop, hs, hi] using List.Sublist.cons i (ih s)

/-- Splitting the snapshot splits the run: first process the prefix, then
process the suffix from the table the prefix left behind. -/
theorem invokeLoop_append (f : Nat → Table → Table) (a b : List Nat)
    (s : Table) :
    invokeLoop f (a ++ b) s =
      ((invokeLoop f b (invokeLoop f a s).1).1,
        (invokeLoop f a s).2 ++ (invokeLoop f b (invokeLoop f a s).1).2) := by
  induction a generalizing s with
  | nil => simp [invokeLoop]
  | cons i rest ih =>
    by_cases hs : s = []
    · subst hs
      simp [invokeLoop, invokeLoop_nil_table]
    · by_cases hi : i ∈ s
      · simp [invokeLoop, hs, hi, ih]
      · simp [invokeLoop, hs, hi, ih]

/-- An id that occurs nowhere in the snapshot is never invoked. -/
theorem not_mem_invokeLoop (f : Nat → Table → Table) (ids : List Nat)
    (s : Table) (i : Nat) (hi : i ∉ ids) : i ∉ (invokeLoop f ids s).2 :=
  fun hmem => hi ((invokeLoop_sublist f ids s).mem hmem)

/-- For a duplicate-free snapshot `pre ++ i :: post`, the callback is invoked
on `i` exactly when, at the moment the iteration reaches `i` (table state
`(invokeLoop f pre s).1`), the table is nonempty and still contains `i`. -/
theorem invokeLoop_mem_iff (f : Nat → Table → Table) (pre post : List Nat)
    (i : Nat) (s : Table) (hpre : i ∉ pre) (hpost : i ∉ post) :
    i ∈ (invokeLoop f (pre ++ i :: post) s).2 ↔
      ((invokeLoop f pre s).1 ≠ [] ∧ i ∈ (invokeLoop f pre s).1) := by
  rw [invokeLoop_append]
  set mid := (invokeLoop f pre s).1 with hmid
  have hnotpre : i ∉ (invokeLoop f pre s).2 :=
    not_mem_invokeLoop f pre s i hpre
  by_cases hm : mid = []
  · simp [invokeLoop, hm, hnotpre]
  · by_cases hi : i ∈ mid
    · simp [invokeLoop, hm, hi]
    · simp [invokeLoop, hm, hi, hnotpre, not_mem_invokeLoop f post mid i hpost]

end TxnTable

namespace ShutdownModel

/-- Unfolding `run` one event at a time. -/
theorem run_cons (e : Event) (es : List Event) (s : SessionSM) :
    run (e :: es) s = run es (step e s) := rfl

/-- `checkForShutdown` mutates nothing but the destruction marker and the
`onDestroy` count: on a not-yet-destroyed state it destroys exactly when the
four destruction conditions hold, bumps the count accordingly, and leaves
the conditions themselves untouched. -/
theorem checkForShutdown_spec (t : SessionSM) (h : t.destroyed = false) :
    (checkForShutdown t).destroyed = destructionConditions t ∧
      (checkForShutdown t).onDestroyCount =
        t.onDestroyCount + (if destructionConditions t then 1 else 0) ∧
      destructionConditions (checkForShutdown t) = destructionConditions t := by
  unfold checkForShutdown destructionConditions
  cases hc : (t.readsShutdown && t.writesShutdown && t.transactions == 0 &&
      t.numActiveWrites == 0) <;> simp [hc, h]

/-- The entry-point mutations never destroy a session and never deliver
`onDestroy`; only `checkForShutdown` does. -/
theorem mutate_destroyed (e : Event) (s : SessionSM) :
    (mutate e s).destroyed = s.destroyed ∧
      (mutate e s).onDestroyCount = s.onDestroyCount := by
  cases e <;> simp [mutate] <;> split <;> simp

/-- The session destruction invariant: in any state, the `onDestroy` count is
one exactly on destroyed states and zero otherwise, and the destruction
marker coincides with the four destruction conditions.  This is preserved by
every step. -/
theorem step_destroy_inv (e : Event) (s : SessionSM)
    (h1 : s.onDestroyCount = if s.destroyed then 1 else 0)
    (h2 : s.destroyed = destructionConditions s) :
    ((step e s).onDestroyCount = if (step e s).destroyed then 1 else 0) ∧
      (step e s).destroyed = destructionConditions (step e s) := by
  by_cases hd : s.destroyed = true
  · simp [step, hd]
    exact ⟨by simpa [hd] using h1, by simpa [hd] using h2⟩
  · simp only [Bool.not_eq_true] at hd
    have hm := mutate_destroyed e s
    have hmd : (mutate e s).destroyed = false := by rw [hm.1, hd]
    have hcs := checkForShutdown_spec (mutate e s) hmd
    have hcount : s.onDestroyCount = 0 := by simpa [hd] using h1
    have hstep : step e s = checkForShutdown (mutate e s) := by
      simp [step, hd]
    rw [hstep]
    refine ⟨?_, ?_⟩
    · rw [hcs.2.1, hm.2, hcount, hcs.1]
      by_cases hcond : destructionConditions (mutate e s) = true
      · simp [hcond]
      · simp only [Bool.not_eq_true] at hcond
        simp [hcond]
    · rw [hcs.1, hcs.2.2]

/-- The destruction invariant holds along any run from any state satisfying
it. -/
theorem run_destroy_inv (es : List Event) (s : SessionSM)
    (h1 : s.onDestroyCount = if s.destroyed then 1 else 0)
    (h2 : s.destroyed = destructionConditions s) :
    ((run es s).onDestroyCount = if (run es s).destroyed then 1 else 0) ∧
      (run es s).destroyed = destructionConditions (run es s) := by
  induction es generalizing s with
  | nil => exact ⟨h1, h2⟩
  | cons e es ih =>
    rw [run_cons]
    have h := step_destroy_inv e s h1 h2
    exact ih (step e s) h.1 h.2

/-- `checkForShutdown` leaves every phase flag unchanged. -/
theorem checkForShutdown_flags (t : SessionSM) :
    (checkForShutdown t).draining = t.draining ∧
      (checkForShutdown t).writesDraining = t.writesDraining ∧
      (checkForShutdown t).readsShutdown = t.readsShutdown ∧
      (checkForShutdown t).writesShutdown = t.writesShutdown ∧
      (checkForShutdown t).resetAfterDrainingWrites = t.resetAfterDrainingWrites ∧
      (checkForShutdown t).ingressError = t.ingressError ∧
      (checkForShutdown t).readsPaused = t.readsPaused ∧
      (checkForShutdown t).writesPaused = t.writesPaused := by
  unfold checkForShutdown
  split <;> simp

/-- No entry-point mutation ever clears `draining_`, `writesDraining_`,
`readsShutdown_`, `writesShutdown_`, `resetAfterDrainingWrites_` or
`ingressError_`. -/
theorem mutate_mono (e : Event) (s : SessionSM) :
    (s.draining = true → (mutate e s).draining = true) ∧
      (s.writesDraining = true → (mutate e s).writesDraining = true) ∧
      (s.readsShutdown = true → (mutate e s).readsShutdown = true) ∧
      (s.writesShutdown = true → (mutate e s).writesShutdown = true) ∧
      (s.resetAfterDrainingWrites = true →
        (mutate e s).resetAfterDrainingWrites = true) ∧
      (s.ingressError = true → (mutate e s).ingressError = true) := by
  cases e <;> simp [mutate] <;> (try split) <;> (try simp) <;> tauto

/-- One step never clears any of the six sticky phase flags. -/
theorem step_mono (e : Event) (s : SessionSM) :
    (s.draining = true → (step e s).draining = true) ∧
      (s.writesDraining = true → (step e s).writesDraining = true) ∧
      (s.readsShutdown = true → (step e s).readsShutdown = true) ∧
      (s.writesShutdown = true → (step e s).writesShutdown = true) ∧
      (s.resetAfterDrainingWrites = true →
        (step e s).resetAfterDrainingWrites = true) ∧
      (s.ingressError = true → (step e s).ingressError = true) := by
  unfold step
  by_cases hd : s.destroyed = true
  · simp [hd]
  · simp only [Bool.not_eq_true] at hd
    have hc := checkForShutdown_flags (mutate e s)
    have hm := mutate_mono e s
    simp only [hd, Bool.false_eq_true, if_false]
    refine ⟨?_, ?_, ?_, ?_, ?_, ?_⟩
    · intro h
      rw [hc.1]
      exact hm.1 h
    · intro h
      rw [hc.2.1]
      exact hm.2.1 h
    · intro h
      rw [hc.2.2.1]
      exact hm.2.2.1 h
    · intro h
      rw [hc.2.2.2.1]
      exact hm.2.2.2.1 h
    · intro h
      rw [hc.2.2.2.2.1]
      exact hm.2.2.2.2.1 h
    · intro h
      rw [hc.2.2.2.2.2.1]
      exact hm.2.2.2.2.2 h

end ShutdownModel

namespace Proxygen

/-- C4: `supportsMoreTransactions()` returns true iff `outgoingStreams_` is
strictly below both the configured outgoing cap and the remote-advertised
cap, equivalently iff `outgoingStreams_` is below
`getMaxConcurrentOutgoingStreams()`, the minimum of the two caps. -/
theorem supportsMoreTransactions_iff (s : HTTPSessionFields) :
    (supportsMoreTransactions s = true ↔
      (s.outgoingStreams_ < s.maxConcurrentOutgoingStreamsConfig_ ∧
        s.outgoingStreams_ < s.maxConcurrentOutgoingStreamsRemote_)) ∧
    (supportsMoreTransactions s = true ↔
      s.outgoingStreams_ < getMaxConcurrentOutgoingStreams s) := by
  unfold supportsMoreTransactions getMaxConcurrentOutgoingStreams
  constructor
  · simp
  · simp [lt_min_iff]

/-- C9: on a freshly constructed session, before any configuration call,
`getMaxConcurrentPushTransactions()` returns 100 and the initial receive
window is 65536 bytes. -/
theorem initHTTPSession_defaults :
    getMaxConcurrentPushTransactions initHTTPSession = 100 ∧
      initHTTPSession.initialReceiveWindow_ = 65536 :=
  ⟨rfl, rfl⟩

/-- C10: `setCloseReason` is write-once: it assigns `closeReason_` only while
it still equals the sentinel `kMAX_REASON` and leaves the state unchanged
otherwise, so `getConnectionCloseReason()` always reports the first
non-sentinel reason ever recorded, regardless of later calls. -/
theorem setCloseReason_write_once :
    (∀ (s : HTTPSessionFields) (r : ConnectionCloseReason),
        s.closeReason_ = ConnectionCloseReason.kMAX_REASON →
          (setCloseReason s r).closeReason_ = r) ∧
    (∀ (s : HTTPSessionFields) (r : ConnectionCloseReason),
        s.closeReason_ ≠ ConnectionCloseReason.kMAX_REASON →
          setCloseReason s r = s) ∧
    (∀ rs : List ConnectionCloseReason,
        getConnectionCloseReason (rs.foldl setCloseReason initHTTPSession) =
          (rs.find? (fun r => r ≠ ConnectionCloseReason.kMAX_REASON)).getD
            ConnectionCloseReason.kMAX_REASON) := by
  refine ⟨?_, ?_, ?_⟩
  · intro s r h
    unfold setCloseReason
    simp [h]
  · intro s r h
    unfold setCloseReason
    simp [h]
  · intro rs
    exact foldl_setCloseReason_first rs initHTTPSession rfl

/-- Witness for `setCloseReason_write_once` at concrete inputs. -/
theorem setCloseReason_write_once_witness :
    (setCloseReason initHTTPSession (ConnectionCloseReason.reason 3)).closeReason_ =
        ConnectionCloseReason.reason 3 ∧
    setCloseReason
        { initHTTPSession with closeReason_ := ConnectionCloseReason.reason 3 }
        (ConnectionCloseReason.reason 5) =
      { initHTTPSession with closeReason_ := ConnectionCloseReason.reason 3 } ∧
    getConnectionCloseReason
        ([ConnectionCloseReason.kMAX_REASON, ConnectionCloseReason.reason 7,
          ConnectionCloseReason.reason 9].foldl setCloseReason initHTTPSession) =
      ConnectionCloseReason.reason 7 :=
  ⟨setCloseReason_write_once.1 initHTTPSession (ConnectionCloseReason.reason 3) rfl,
    setCloseReason_write_once.2.1 _ (ConnectionCloseReason.reason 5) (by decide),
    by
      rw [setCloseReason_write_once.2.2
        [ConnectionCloseReason.kMAX_REASON, ConnectionCloseReason.reason 7,
          ConnectionCloseReason.reason 9]]
      decide⟩

end Proxygen

namespace TxnTable

/-- C8: `invokeOnAllTransactions` iterates over a snapshot of stream ids
taken before any callback runs: the ids actually invoked form a
duplicate-free subsequence of the snapshot (so each transaction is invoked
at most once and a transaction added during the iteration is never
invoked), and a snapshot id is invoked exactly when, at the moment the
iteration reaches it, the table is nonempty (otherwise iteration has
stopped early) and the id is still present (a transaction removed by an
earlier callback is looked up again, found missing, and skipped). -/
theorem invokeOnAllTransactions_snapshot :
    (∀ (f : Nat → Table → Table) (ids s : Table),
        ((invokeLoop f ids s).2).Sublist ids) ∧
    (∀ (f : Nat → Table → Table) (s : Table),
        s.Nodup → ((invokeOnAllTransactions f s).2).Nodup) ∧
    (∀ (f : Nat → Table → Table) (pre post : List Nat) (i : Nat),
        (pre ++ i :: post).Nodup →
          (i ∈ (invokeOnAllTransactions f (pre ++ i :: post)).2 ↔
            ((invokeLoop f pre (pre ++ i :: post)).1 ≠ [] ∧
              i ∈ (invokeLoop f pre (pre ++ i :: post)).1))) := by
  refine ⟨invokeLoop_sublist, ?_, ?_⟩
  · intro f s h
    exact (invokeLoop_sublist f s s).nodup h
  · intro f pre post i h
    rw [List.nodup_append] at h
    obtain ⟨h1, h2, h3⟩ := h
    have hpost : i ∉ post := (List.nodup_cons.mp h2).1
    have hpre : i ∉ pre := fun hmem => h3 hmem (List.mem_cons_self i post)
    exact invokeLoop_mem_iff f pre post i (pre ++ i :: post) hpre hpost

/-- Witness for `invokeOnAllTransactions_snapshot` at concrete inputs. -/
theorem invokeOnAllTransactions_snapshot_witness :
    ((invokeOnAllTransactions (fun _ t => t) [1, 2]).2).Nodup ∧
    (2 ∈ (invokeOnAllTransactions (fun _ t => t) ([1] ++ 2 :: [])).2 ↔
      ((invokeLoop (fun _ t => t) [1] ([1] ++ 2 :: [])).1 ≠ [] ∧
        2 ∈ (invokeLoop (fun _ t => t) [1] ([1] ++ 2 :: [])).1)) :=
  ⟨invokeOnAllTransactions_snapshot.2.1 (fun _ t => t) [1, 2] (by decide),
    invokeOnAllTransactions_snapshot.2.2 (fun _ t => t) [1] [] 2 (by decide)⟩

end TxnTable

namespace ShutdownModel

/-- C1: along every event sequence from a fresh session, the session is
destroyed exactly when the four destruction conditions hold simultaneously
(`readsShutdown_ ∧ writesShutdown_ ∧ transactions_ empty ∧
numActiveWrites_ = 0`), and `InfoCallback::onDestroy` has been delivered
exactly once on destroyed states and never otherwise. -/
theorem session_destroyed_iff_conditions (d : Direction) (es : List Event) :
    ((run es (initSession d)).destroyed = true ↔
      ((run es (initSession d)).readsShutdown = true ∧
        (run es (initSession d)).writesShutdown = true ∧
        (run es (initSession d)).transactions = 0 ∧
        (run es (initSession d)).numActiveWrites = 0)) ∧
    (run es (initSession d)).onDestroyCount =
      (if (run es (initSession d)).destroyed then 1 else 0) := by
  have h := run_destroy_inv es (initSession d) (by simp [initSession]) rfl
  refine ⟨?_, h.1⟩
  rw [h.2]
  unfold destructionConditions
  simp [and_assoc]

/-- C3 (amended): the six phase flags `draining_`, `writesDraining_`,
`readsShutdown_`, `writesShutdown_`, `resetAfterDrainingWrites_` and
`ingressError_` are monotonic: once true, no subsequent event sequence ever
clears them.  (`readsPaused_` and `writesPaused_` are not monotonic; see
the accompanying counterexample.) -/
theorem sticky_flags_monotonic (es : List Event) (s : SessionSM) :
    (s.draining = true → (run es s).draining = true) ∧
      (s.writesDraining = true → (run es s).writesDraining = true) ∧
      (s.readsShutdown = true → (run es s).readsShutdown = true) ∧
      (s.writesShutdown = true → (run es s).writesShutdown = true) ∧
      (s.resetAfterDrainingWrites = true →
        (run es s).resetAfterDrainingWrites = true) ∧
      (s.ingressError = true → (run es s).ingressError = true) := by
  induction es generalizing s with
  | nil => exact ⟨id, id, id, id, id, id⟩
  | cons e es ih =>
    rw [run_cons]
    have hs := step_mono e s
    have hi := ih (step e s)
    exact ⟨fun h => hi.1 (hs.1 h), fun h => hi.2.1 (hs.2.1 h),
      fun h => hi.2.2.1 (hs.2.2.1 h), fun h => hi.2.2.2.1 (hs.2.2.2.1 h),
      fun h => hi.2.2.2.2.1 (hs.2.2.2.2.1 h),
      fun h => hi.2.2.2.2.2 (hs.2.2.2.2.2 h)⟩

/-- Counterexample to C3 as stated: `readsPaused_` and `writesPaused_` are
not monotonic — after `pauseReads` (resp. the egress-cap pause)
`readsPaused_` (resp. `writesPaused_`) is true, and the subsequent
`resumeReads` (resp. egress resume) operation sets it back to false. -/
theorem paused_flags_not_monotonic :
    (run [Event.pauseReads] (initSession Direction.downstream)).readsPaused =
        true ∧
    (run [Event.pauseReads, Event.resumeReads]
        (initSession Direction.downstream)).readsPaused = false ∧
    (run [Event.pauseWrites] (initSession Direction.downstream)).writesPaused =
        true ∧
    (run [Event.pauseWrites, Event.resumeWrites]
        (initSession Direction.downstream)).writesPaused = false := by
  decide

/-- Witness for `sticky_flags_monotonic` at concrete inputs: each sticky
flag, once set by its entry point, survives a further event. -/
theorem sticky_flags_monotonic_witness :
    (run [Event.submitWrite]
        (step Event.drain (initSession Direction.upstream))).draining = true ∧
    (run [Event.addTransaction]
        (step Event.closeWhenIdle
          (initSession Direction.upstream))).writesDraining = true ∧
    (run [Event.addTransaction]
        (step Event.sessionParseError
          (initSession Direction.upstream))).readsShutdown = true ∧
    (run [Event.addTransaction]
        (step Event.closeWhenIdle
          (initSession Direction.upstream))).writesShutdown = true ∧
    (run [Event.completeWrite]
        (step Event.dropConnection
          (step Event.submitWrite
            (initSession Direction.upstream)))).resetAfterDrainingWrites =
        true ∧
    (run [Event.addTransaction]
        (step Event.sessionParseError
          (initSession Direction.upstream))).ingressError = true :=
  ⟨(sticky_flags_monotonic [Event.submitWrite] _).1 (by decide),
    (sticky_flags_monotonic [Event.addTransaction] _).2.1 (by decide),
    (sticky_flags_monotonic [Event.addTransaction] _).2.2.1 (by decide),
    (sticky_flags_monotonic [Event.addTransaction] _).2.2.2.1 (by decide),
    (sticky_flags_monotonic [Event.completeWrite] _).2.2.2.2.1 (by decide),
    (sticky_flags_monotonic [Event.addTransaction] _).2.2.2.2.2 (by decide)⟩

/-- C7: for a draining session whose last transaction (no writes in flight)
is removed: an upstream session shuts down the transport and destroys
itself at once; a downstream session stays alive with the transport open
until an explicit `shutdownTransport` or `dropConnection`, either of which
then destroys it. -/
theorem drain_last_transaction (s : SessionSM)
    (hde : s.destroyed = false) (hdr : s.draining = true)
    (ht : s.transactions = 1) (hw : s.numActiveWrites = 0) :
    (s.direction = Direction.upstream →
      ((step Event.detachTransaction s).readsShutdown = true ∧
        (step Event.detachTransaction s).writesShutdown = true ∧
        (step Event.detachTransaction s).destroyed = true)) ∧
    (s.direction = Direction.downstream → s.readsShutdown = false →
      s.writesShutdown = false →
      ((step Event.detachTransaction s).destroyed = false ∧
        (step Event.detachTransaction s).readsShutdown = false ∧
        (step Event.detachTransaction s).writesShutdown = false ∧
        (step (Event.shutdownTransport true true)
            (step Event.detachTransaction s)).destroyed = true ∧
        (step Event.dropConnection
            (step Event.detachTransaction s)).destroyed = true)) := by
  constructor
  · intro hup
    simp [step, mutate, checkForShutdown, hde, hdr, ht, hw, hup]
  · intro hdn hrs hws
    have hnotup : ¬(s.direction = Direction.upstream) := by
      rw [hdn]
      intro hc
      cases hc
    simp [step, mutate, checkForShutdown, hde, hdr, ht, hw, hnotup, hrs, hws]

/-- Witness for `drain_last_transaction` at concrete inputs: a draining
upstream session destroys itself on removing its last transaction; a
draining downstream session survives it and is destroyed by the subsequent
`dropConnection`. -/
theorem drain_last_transaction_witness :
    ((step Event.detachTransaction
        (run [Event.addTransaction, Event.drain]
          (initSession Direction.upstream))).destroyed = true) ∧
    ((step Event.detachTransaction
        (run [Event.addTransaction, Event.drain]
          (initSession Direction.downstream))).destroyed = false) ∧
    ((step Event.dropConnection
        (step Event.detachTransaction
          (run [Event.addTransaction, Event.drain]
            (initSession Direction.downstream)))).destroyed = true) :=
  ⟨((drain_last_transaction
      (run [Event.addTransaction, Event.drain] (initSession Direction.upstream))
      (by decide) (by decide) (by decide) (by decide)).1 (by decide)).2.2,
    ((drain_last_transaction
      (run [Event.addTransaction, Event.drain]
        (initSession Direction.downstream))
      (by decide) (by decide) (by decide) (by decide)).2 (by decide) (by decide)
      (by decide)).1,
    ((drain_last_transaction
      (run [Event.addTransaction, Event.drain]
        (initSession Direction.downstream))
      (by decide) (by decide) (by decide) (by decide)).2 (by decide) (by decide)
      (by decide)).2.2.2.2⟩

end ShutdownModel

namespace EgressModel

/-- The total pending length distributes over appending a segment. -/
theorem pendingWritesLength_append (l : List WriteSegment) (w : WriteSegment) :
    pendingWritesLength (l ++ [w]) = pendingWritesLength l + w.length_ := by
  simp [pendingWritesLength]

/-- The send-* calls of a turn only grow the write buffer; the counters and
the pending-write list are untouched until the loop callback runs. -/
theorem sends_foldl_fields (sends : List Nat) (s : EgressState) :
    (sends.foldl (fun t n => sendBytes n t) s).pendingWrites = s.pendingWrites ∧
      (sends.foldl (fun t n => sendBytes n t) s).bytesWritten_ =
        s.bytesWritten_ ∧
      (sends.foldl (fun t n => sendBytes n t) s).bytesScheduled_ =
        s.bytesScheduled_ := by
  induction sends generalizing s with
  | nil => exact ⟨rfl, rfl, rfl⟩
  | cons n ns ih =>
    rw [List.foldl_cons]
    exact ih (sendBytes n s)

/-- A full turn preserves the loop-boundary accounting invariant: the write
buffer is drained into at most one submitted segment, whose length moves
from the buffer into `bytesScheduled_` and the pending list. -/
theorem runTurn_inv (sends : List Nat) (s : EgressState)
    (h2 : s.bytesScheduled_ =
      s.bytesWritten_ + pendingWritesLength s.pendingWrites) :
    (runTurn sends s).writeBufLen = 0 ∧
      (runTurn sends s).bytesScheduled_ =
        (runTurn sends s).bytesWritten_ +
          pendingWritesLength (runTurn sends s).pendingWrites := by
  have hf := sends_foldl_fields sends s
  unfold runTurn loopCallback
  set t := sends.foldl (fun u n => sendBytes n u) s with ht
  by_cases hz : t.writeBufLen = 0
  · rw [if_pos (by simp [hz])]
    exact ⟨hz, by rw [hf.1, hf.2.1, hf.2.2]; exact h2⟩
  · rw [if_neg (by simp [hz])]
    refine ⟨rfl, ?_⟩
    show t.bytesScheduled_ + t.writeBufLen =
      t.bytesWritten_ +
        pendingWritesLength (t.pendingWrites ++ [{ length_ := t.writeBufLen }])
    rw [pendingWritesLength_append, hf.1, hf.2.1, hf.2.2, h2]
    have hw : ({ length_ := t.writeBufLen } : WriteSegment).length_ =
        t.writeBufLen := rfl
    rw [hw]
    omega

/-- A write completion preserves the loop-boundary accounting invariant: the
popped segment's length moves from the pending list into `bytesWritten_`. -/
theorem writeSuccess_inv (s : EgressState)
    (h1 : s.writeBufLen = 0)
    (h2 : s.bytesScheduled_ =
      s.bytesWritten_ + pendingWritesLength s.pendingWrites) :
    (writeSuccess s).writeBufLen = 0 ∧
      (writeSuccess s).bytesScheduled_ =
        (writeSuccess s).bytesWritten_ +
          pendingWritesLength (writeSuccess s).pendingWrites := by
  unfold writeSuccess
  cases hp : s.pendingWrites with
  | nil => exact ⟨h1, h2⟩
  | cons seg rest =>
    refine ⟨h1, ?_⟩
    rw [hp] at h2
    have hlen : pendingWritesLength (seg :: rest) =
        seg.length_ + pendingWritesLength rest := by
      simp [pendingWritesLength]
    show s.bytesScheduled_ =
      s.bytesWritten_ + seg.length_ + pendingWritesLength rest
    omega

/-- The loop-boundary accounting invariant is preserved by every egress
event. -/
theorem egressStep_inv (e : EgressEvent) (s : EgressState)
    (h1 : s.writeBufLen = 0)
    (h2 : s.bytesScheduled_ =
      s.bytesWritten_ + pendingWritesLength s.pendingWrites) :
    (egressStep e s).writeBufLen = 0 ∧
      (egressStep e s).bytesScheduled_ =
        (egressStep e s).bytesWritten_ +
          pendingWritesLength (egressStep e s).pendingWrites := by
  cases e with
  | turn sends => exact runTurn_inv sends s h2
  | writeSuccess => exact writeSuccess_inv s h1 h2

/-- The loop-boundary accounting invariant holds along any run. -/
theorem runEgress_inv (es : List EgressEvent) (s : EgressState)
    (h1 : s.writeBufLen = 0)
    (h2 : s.bytesScheduled_ =
      s.bytesWritten_ + pendingWritesLength s.pendingWrites) :
    (runEgress es s).writeBufLen = 0 ∧
      (runEgress es s).bytesScheduled_ =
        (runEgress es s).bytesWritten_ +
          pendingWritesLength (runEgress es s).pendingWrites := by
  induction es generalizing s with
  | nil => exact ⟨h1, h2⟩
  | cons e es ih =>
    have h := egressStep_inv e s h1 h2
    exact ih (egressStep e s) h.1 h.2

/-- C2: between event-loop turns, for every session state reachable by any
sequence of turns and write completions, `bytesWritten_ ≤ bytesScheduled_`
and `bytesScheduled_ = bytesWritten_ + writeBuf_.length + Σ lengths of the
WriteSegments in pendingWrites_`. -/
theorem bytes_scheduled_accounting (es : List EgressEvent) :
    (runEgress es initEgress).bytesWritten_ ≤
        (runEgress es initEgress).bytesScheduled_ ∧
      (runEgress es initEgress).bytesScheduled_ =
        (runEgress es initEgress).bytesWritten_ +
          (runEgress es initEgress).writeBufLen +
          pendingWritesLength (runEgress es initEgress).pendingWrites := by
  have h := runEgress_inv es initEgress rfl rfl
  refine ⟨?_, ?_⟩
  · rw [h.2]
    exact Nat.le_add_right _ _
  · rw [h.2, h.1]
    omega

end EgressModel

namespace AbortModel

/-- C6: `sendAbort` is idempotent per transaction: the second of two
successive `sendAbort` calls on the same transaction puts nothing on the
wire, and on a not-yet-aborted transaction the two calls together emit
exactly one reset frame. -/
theorem sendAbort_idempotent (t : TxnState) :
    ((sendAbort (sendAbort t).1).2 = 0) ∧
      (t.aborted = false →
        (sendAbort t).2 + (sendAbort (sendAbort t).1).2 = 1) := by
  cases ht : t.aborted <;> simp [sendAbort, ht]

/-- Witness for `sendAbort_idempotent` at a concrete transaction. -/
theorem sendAbort_idempotent_witness :
    ((sendAbort (sendAbort { streamID := 1, aborted := false }).1).2 = 0) ∧
      ((sendAbort { streamID := 1, aborted := false }).2 +
        (sendAbort (sendAbort { streamID := 1, aborted := false }).1).2 = 1) :=
  ⟨(sendAbort_idempotent { streamID := 1, aborted := false }).1,
    (sendAbort_idempotent { streamID := 1, aborted := false }).2 rfl⟩

end AbortModel

namespace BackpressureModel

/-- The backpressure invariant is preserved by every ingress event:
(1) paused reads imply a past `pauseReads` call; (2) `pauseReads` and
`onIngressLimitExceeded` fire together; (3) once the limit has been
exceeded, `pauseReads` has been called; (4) `resumeReads` has been called
exactly when the counter dropped below the limit after a pause; (5) a pause
followed by unpaused reads means a resume happened. -/
theorem readStep_inv (limit : Nat) (e : ReadEvent) (s : ReadState)
    (i1 : s.readsPaused = true → 1 ≤ s.pauseReadsCalls)
    (i2 : s.pauseReadsCalls = s.limitExceededCalls)
    (i3 : s.everExceeded = true → 1 ≤ s.pauseReadsCalls)
    (i4 : 1 ≤ s.resumeReadsCalls ↔ s.everDroppedBelow = true)
    (i5 : 1 ≤ s.pauseReadsCalls → s.readsPaused = false →
      1 ≤ s.resumeReadsCalls) :
    ((readStep limit e s).readsPaused = true →
        1 ≤ (readStep limit e s).pauseReadsCalls) ∧
      (readStep limit e s).pauseReadsCalls =
        (readStep limit e s).limitExceededCalls ∧
      ((readStep limit e s).everExceeded = true →
        1 ≤ (readStep limit e s).pauseReadsCalls) ∧
      (1 ≤ (readStep limit e s).resumeReadsCalls ↔
        (readStep limit e s).everDroppedBelow = true) ∧
      (1 ≤ (readStep limit e s).pauseReadsCalls →
        (readStep limit e s).readsPaused = false →
        1 ≤ (readStep limit e s).resumeReadsCalls) := by
  cases e with
  | ingressBatch n =>
    simp only [readStep, ingressBatch]
    by_cases hg : limit < s.pendingReadSize_ + n ∧ s.readsPaused = false
    · rw [if_pos hg]
      refine ⟨fun _ => ?_, ?_, fun _ => ?_, i4, fun _ hcon => ?_⟩
      · show 1 ≤ s.pauseReadsCalls + 1
        omega
      · show s.pauseReadsCalls + 1 = s.limitExceededCalls + 1
        omega
      · show 1 ≤ s.pauseReadsCalls + 1
        omega
      · exact absurd hcon (by simp)
    · rw [if_neg hg]
      rw [not_and] at hg
      refine ⟨i1, i2, ?_, i4, i5⟩
      intro h
      have h' : s.everExceeded = true ∨
          decide (limit < s.pendingReadSize_ + n) = true :=
        Bool.or_eq_true_iff.mp h
      rcases h' with h' | h'
      · exact i3 h'
      · have hlt : limit < s.pendingReadSize_ + n := of_decide_eq_true h'
        have hp : s.readsPaused = true := by
          rcases Bool.eq_false_or_eq_true s.readsPaused with ht | hf
          · exact ht
          · exact absurd hf (hg hlt)
        exact i1 hp
  | bodyProcessed n =>
    simp only [readStep, notifyIngressBodyProcessed]
    by_cases hg : s.readsPaused = true ∧ s.pendingReadSize_ - n < limit
    · rw [if_pos hg]
      have hp1 : 1 ≤ s.pauseReadsCalls := i1 hg.1
      refine ⟨?_, i2, i3, ?_, fun _ _ => ?_⟩
      · intro hcon
        exact absurd hcon (by simp)
      · show 1 ≤ s.resumeReadsCalls + 1 ↔
          (s.everDroppedBelow ||
            (decide (1 ≤ s.pauseReadsCalls) &&
              decide (s.pendingReadSize_ - n < limit))) = true
        simp [hp1, hg.2]
      · show 1 ≤ s.resumeReadsCalls + 1
        omega
    · rw [if_neg hg]
      rw [not_and] at hg
      refine ⟨i1, i2, i3, ?_, i5⟩
      show 1 ≤ s.resumeReadsCalls ↔
        (s.everDroppedBelow ||
          (decide (1 ≤ s.pauseReadsCalls) &&
            decide (s.pendingReadSize_ - n < limit))) = true
      constructor
      · intro hr
        have : s.everDroppedBelow = true := i4.mp hr
        simp [this]
      · intro hor
        rcases Bool.or_eq_true_iff.mp hor with h' | h'
        · exact i4.mpr h'
        · have hb := Bool.and_eq_true_iff.mp h'
          have hp1 : 1 ≤ s.pauseReadsCalls := of_decide_eq_true hb.1
          have hlt : s.pendingReadSize_ - n < limit := of_decide_eq_true hb.2
          have hpf : s.readsPaused = false := by
            rcases Bool.eq_false_or_eq_true s.readsPaused with ht | hf
            · exact absurd hlt (hg ht)
            · exact hf
          exact i5 hp1 hpf

/-- The backpressure invariant holds along any run from any state satisfying
it. -/
theorem runReads_inv (limit : Nat) (es : List ReadEvent) (s : ReadState)
    (i1 : s.readsPaused = true → 1 ≤ s.pauseReadsCalls)
    (i2 : s.pauseReadsCalls = s.limitExceededCalls)
    (i3 : s.everExceeded = true → 1 ≤ s.pauseReadsCalls)
    (i4 : 1 ≤ s.resumeReadsCalls ↔ s.everDroppedBelow = true)
    (i5 : 1 ≤ s.pauseReadsCalls → s.readsPaused = false →
      1 ≤ s.resumeReadsCalls) :
    ((runReads limit es s).readsPaused = true →
        1 ≤ (runReads limit es s).pauseReadsCalls) ∧
      (runReads limit es s).pauseReadsCalls =
        (runReads limit es s).limitExceededCalls ∧
      ((runReads limit es s).everExceeded = true →
        1 ≤ (runReads limit es s).pauseReadsCalls) ∧
      (1 ≤ (runReads limit es s).resumeReadsCalls ↔
        (runReads limit es s).everDroppedBelow = true) ∧
      (1 ≤ (runReads limit es s).pauseReadsCalls →
        (runReads limit es s).readsPaused = false →
        1 ≤ (runReads limit es s).resumeReadsCalls) := by
  induction es generalizing s with
  | nil => exact ⟨i1, i2, i3, i4, i5⟩
  | cons e es ih =>
    have h := readStep_inv limit e s i1 i2 i3 i4 i5
    exact ih (readStep limit e s) h.1 h.2.1 h.2.2.1 h.2.2.2.1 h.2.2.2.2

/-- C5: along every ingress sequence from a fresh session, if
`pendingReadSize_` ever exceeded `kDefaultReadBufLimit` after an ingress
batch then `pauseReads()` has been called at least once and
`onIngressLimitExceeded` has fired at least once; and `resumeReads()` has
been called iff `pendingReadSize_`, as decremented by
`notifyIngressBodyProcessed`, afterwards dropped below the limit. -/
theorem backpressure_pause_resume (limit : Nat) (es : List ReadEvent) :
    ((runReads limit es initReadState).everExceeded = true →
        1 ≤ (runReads limit es initReadState).pauseReadsCalls ∧
          1 ≤ (runReads limit es initReadState).limitExceededCalls) ∧
      (1 ≤ (runReads limit es initReadState).resumeReadsCalls ↔
        (runReads limit es initReadState).everDroppedBelow = true) := by
  have h := runReads_inv limit es initReadState (by simp [initReadState]) rfl
    (by simp [initReadState]) (by simp [initReadState]) (by simp [initReadState])
  refine ⟨?_, h.2.2.2.1⟩
  intro hex
  have hp := h.2.2.1 hex
  exact ⟨hp, h.2.1 ▸ hp⟩

/-- Witness for `backpressure_pause_resume` at concrete inputs: with limit 4,
a 5-byte ingress batch pauses reads and fires the limit callback, and
processing 3 bytes drops the counter to 2 < 4, resuming reads. -/
theorem backpressure_pause_resume_witness :
    (1 ≤ (runReads 4 [ReadEvent.ingressBatch 5, ReadEvent.bodyProcessed 3]
        initReadState).pauseReadsCalls ∧
      1 ≤ (runReads 4 [ReadEvent.ingressBatch 5, ReadEvent.bodyProcessed 3]
        initReadState).limitExceededCalls) ∧
    1 ≤ (runReads 4 [ReadEvent.ingressBatch 5, ReadEvent.bodyProcessed 3]
        initReadState).resumeReadsCalls :=
  ⟨(backpressure_pause_resume 4
      [ReadEvent.ingressBatch 5, ReadEvent.bodyProcessed 3]).1 (by decide),
    (backpressure_pause_resume 4
      [ReadEvent.ingressBatch 5, ReadEvent.bodyProcessed 3]).2.mpr (by decide)⟩

end BackpressureModel
